import Mathlib

/-!
Shallow embedding of `src/system_log.py` (BLE-gateway system-log module):
a custom rotating file handler (size and calendar-day rollover), a
Redis-backed bounded per-source log buffer, and the logging-configuration
endpoints, together with proofs about them.

Machine conventions: calendar days are the strings produced by
`datetime.now().strftime("%Y-%m-%d")` and are passed explicitly as `today`;
the file system is an association list from resolved absolute paths to file
contents; Redis is an association list from keys to lists with optional
absolute expiry times; Python exceptions are modelled with `Except`, the
error value carrying the mutable state as it stands at the raise point.
-/

namespace BleGatewayLog

/-- Character-list test that `pat` is an initial segment of `s`. -/
def leadsWith : List Char → List Char → Bool
  | [], _ => true
  | _ :: _, [] => false
  | a :: as, b :: bs => a == b && leadsWith as bs

/-- Fuelled core of Python `str.replace`: replace every non-overlapping
occurrence of `pat`, scanning left to right. Each step consumes at least one
character, so fuel `s.length` always suffices. An empty `pat` is left alone
(the source never calls `replace` with an empty pattern). -/
def replFuel (pat rep : List Char) : Nat → List Char → List Char
  | _, [] => []
  | 0, l => l
  | fuel + 1, c :: cs =>
    if !pat.isEmpty && leadsWith pat (c :: cs) then
      rep ++ replFuel pat rep fuel (List.drop (pat.length - 1) cs)
    else
      c :: replFuel pat rep fuel cs

/-- Python `str.replace`. -/
def pyReplace (s pat rep : String) : String :=
  ⟨replFuel pat.data rep.data s.data.length s.data⟩

/-- Fuelled core of Python `str.split(sep)`. -/
def splitFuel (sep : List Char) : Nat → List Char → List Char → List (List Char)
  | _, acc, [] => [acc.reverse]
  | 0, acc, l => [acc.reverse ++ l]
  | fuel + 1, acc, c :: cs =>
    if !sep.isEmpty && leadsWith sep (c :: cs) then
      acc.reverse :: splitFuel sep fuel [] (List.drop (sep.length - 1) cs)
    else
      splitFuel sep fuel (c :: acc) cs

/-- Python `str.split(sep)`. -/
def pySplit (s sep : String) : List String :=
  (splitFuel sep.data s.data.length [] s.data).map fun l => ⟨l⟩

/-- Python `str.split(sep)[-1]` — `split` always returns a non-empty list. -/
def pyLastSplit (s sep : String) : String :=
  (pySplit s sep).getLastD ""

/-- `os.path.abspath` with the process working directory fixed at `/app`. -/
def resolve (p : String) : String :=
  match p.data with
  | '/' :: _ => p
  | _ => "/app/" ++ p

/-- The local file system: an association list from resolved paths to file
contents. -/
structure FS where
  files : List (String × String)
  deriving Repr, DecidableEq

def FS.lookupFile (fs : FS) (p : String) : Option String :=
  (fs.files.find? fun e => e.1 == resolve p).map (·.2)

/-- `os.path.exists`. -/
def FS.existsFile (fs : FS) (p : String) : Bool :=
  (fs.lookupFile p).isSome

def FS.removeFile (fs : FS) (p : String) : FS :=
  ⟨fs.files.filter fun e => !(e.1 == resolve p)⟩

def FS.setFile (fs : FS) (p c : String) : FS :=
  ⟨(resolve p, c) :: (fs.removeFile p).files⟩

/-- `os.rename src dst`, overwrite semantics. Every call site in the source
guards the rename with `os.path.exists(src)`, so the missing-source error of
the real call is unreachable and the model moves only when the source
exists. -/
def FS.rename (fs : FS) (src dst : String) : FS :=
  match fs.lookupFile src with
  | none => fs
  | some c => (fs.removeFile src).setFile dst c

/-- `os.path.getsize`: `none` models the `FileNotFoundError` raise. -/
def FS.getsize (fs : FS) (p : String) : Option Nat :=
  (fs.lookupFile p).map String.length

/-- `open(path, "a")`: creates an empty file when absent, keeps contents
otherwise. -/
def FS.openAppend (fs : FS) (p : String) : FS :=
  if fs.existsFile p then fs else fs.setFile p ""

/-- Python exceptions that can escape the write path. -/
inductive PyErr where
  | fileNotFound
  | attributeError
  deriving Repr, DecidableEq

/-- State of one `CustomRotatingFileHandler`: `current_date` and
`base_filename` are the attributes written by `__init__`, `shouldRollover`
and `doRollover`; `baseFilename` is the attribute installed by the inherited
`FileHandler.__init__` (an absolute path, never rewritten by this class);
`streamPath` is `None` or the resolved path the stream was opened at;
`buffer` holds bytes written to the stream but not yet flushed. -/
structure HandlerState where
  current_date : String
  base_filename : String
  baseFilename : String
  maxBytes : Int
  backupCount : Int
  streamPath : Option String
  buffer : String
  deriving Repr, DecidableEq

/-- `self.stream.flush()`: commit the stream buffer to the file the stream
was opened at (a flush to an externally deleted file writes to the orphaned
inode and is lost). -/
def flushStream (st : HandlerState) (fs : FS) : HandlerState × FS :=
  match st.streamPath with
  | none => (st, fs)
  | some p =>
    match fs.lookupFile p with
    | none => ({ st with buffer := "" }, fs)
    | some c => ({ st with buffer := "" }, fs.setFile p (c ++ st.buffer))

/-- `self.stream.close(); self.stream = None` (close flushes). -/
def closeStream (st : HandlerState) (fs : FS) : HandlerState × FS :=
  match st.streamPath with
  | none => (st, fs)
  | some _ =>
    let sfs := flushStream st fs
    ({ sfs.1 with streamPath := none }, sfs.2)

/-- The date-rewriting assignment duplicated in `shouldRollover` and
`doRollover`:
`self.base_filename = self.baseFilename.replace(self.baseFilename.split("_")[-1], f"{new_date}.txt")`. -/
def newBaseFilename (baseFN new_date : String) : String :=
  pyReplace baseFN (pyLastSplit baseFN "_") (new_date ++ ".txt")

/-- The paired updates `self.current_date = new_date` and the
`base_filename` rewrite above. -/
def adoptDate (st : HandlerState) (new_date : String) : HandlerState :=
  { st with current_date := new_date,
            base_filename := newBaseFilename st.baseFilename new_date }

/-- `CustomRotatingFileHandler.shouldRollover`: flush, then compare the
on-disk size of `self.baseFilename` with `maxBytes`; otherwise compare the
calendar day, adopting a changed day into the handler state. -/
def shouldRollover (st : HandlerState) (today : String) (fs : FS) :
    Except (PyErr × HandlerState × FS) (Bool × HandlerState × FS) :=
  match st.streamPath with
  | none => .error (.attributeError, st, fs)
  | some _ =>
    let sfs := flushStream st fs
    match sfs.2.getsize sfs.1.baseFilename with
    | none => .error (.fileNotFound, sfs.1, sfs.2)
    | some sz =>
      if (sz : Int) ≥ sfs.1.maxBytes then .ok (true, sfs.1, sfs.2)
      else if today ≠ sfs.1.current_date then .ok (true, adoptDate sfs.1 today, sfs.2)
      else .ok (false, sfs.1, sfs.2)

/-- The literal backup filenames built in `doRollover`:
`f"system_logs_{i}_{self.current_date}.txt"`. -/
def backupName (i : Int) (date : String) : String :=
  "system_logs_" ++ toString i ++ "_" ++ date ++ ".txt"

/-- The backup-shift loop `for i in range(self.backupCount - 1, 0, -1)`:
`i` runs from `backupCount - 1` down to `1`, renaming each existing backup
`i` to `i + 1`. -/
def shiftBackups (date : String) : Nat → FS → FS
  | 0, fs => fs
  | i + 1, fs =>
    let old_file := backupName (i + 1 : Int) date
    let new_file := backupName (i + 2 : Int) date
    let fs' := if fs.existsFile old_file then fs.rename old_file new_file else fs
    shiftBackups date i fs'

/-- `CustomRotatingFileHandler.doRollover`. -/
def doRollover (st : HandlerState) (today : String) (fs : FS) :
    HandlerState × FS :=
  let cfs := closeStream st fs
  let st1 := if today ≠ cfs.1.current_date then adoptDate cfs.1 today else cfs.1
  let fs1 := shiftBackups st1.current_date (st1.backupCount - 1).toNat cfs.2
  let log_backup := backupName 1 st1.current_date
  let fs2 := if fs1.existsFile st1.base_filename then fs1.rename st1.base_filename log_backup else fs1
  let fs3 := fs2.openAppend st1.baseFilename
  ({ st1 with streamPath := some (resolve st1.baseFilename) }, fs3)

/-- `StreamHandler.emit`: write the formatted record plus terminator and
flush, inside its own `try/except: handleError` guard, hence total. The
formatted record is abstracted to the message text. -/
def streamEmit (st : HandlerState) (msg : String) (fs : FS) : HandlerState × FS :=
  match st.streamPath with
  | none => (st, fs)
  | some _ => flushStream { st with buffer := st.buffer ++ msg ++ "\n" } fs

/-- `FileHandler.emit`: reopen the stream at `self.baseFilename` when it is
`None`, then delegate to `StreamHandler.emit`. -/
def fileHandlerEmit (st : HandlerState) (msg : String) (fs : FS) : HandlerState × FS :=
  match st.streamPath with
  | some _ => streamEmit st msg fs
  | none =>
    streamEmit { st with streamPath := some (resolve st.baseFilename) } msg
      (fs.openAppend st.baseFilename)

/-- Body of the inherited `BaseRotatingHandler.emit` (reached as
`super().emit(record)`): a second rollover check, then the file write. -/
def superEmitBody (st : HandlerState) (today msg : String) (fs : FS) :
    Except (PyErr × HandlerState × FS) (HandlerState × FS) :=
  match shouldRollover st today fs with
  | .error e => .error e
  | .ok (b, st1, fs1) =>
    let r := if b then doRollover st1 today fs1 else (st1, fs1)
    .ok (fileHandlerEmit r.1 msg r.2)

/-- `BaseRotatingHandler.emit` wraps its body in `try/except: handleError`:
an exception raised inside is absorbed and the state at the raise point is
kept. -/
def superEmit (st : HandlerState) (today msg : String) (fs : FS) : HandlerState × FS :=
  match superEmitBody st today msg fs with
  | .ok r => r
  | .error (_, st', fs') => (st', fs')

/-- `CustomRotatingFileHandler.emit`: its own rollover check and rotation
run before `super().emit(record)` and outside any exception handler, so an
exception raised there propagates to the caller. -/
def emit (st : HandlerState) (today msg : String) (fs : FS) :
    Except (PyErr × HandlerState × FS) (HandlerState × FS) :=
  match shouldRollover st today fs with
  | .error e => .error e
  | .ok (b, st1, fs1) =>
    let r := if b then doRollover st1 today fs1 else (st1, fs1)
    .ok (superEmit r.1 today msg r.2)

/-- `CustomRotatingFileHandler.__init__(filename, maxBytes, backupCount)` on
day `today`: rewrite the filename to embed the date, then the inherited
constructor stores the absolute path in `baseFilename` and opens the stream
in append mode. -/
def initHandler (filename : String) (maxBytes backupCount : Int) (today : String)
    (fs : FS) : HandlerState × FS :=
  let base_filename := pyReplace filename ".txt" ("_" ++ today ++ ".txt")
  let baseFN := resolve base_filename
  ({ current_date := today, base_filename, baseFilename := baseFN,
     maxBytes, backupCount, streamPath := some baseFN, buffer := "" },
   fs.openAppend baseFN)

/-- One Redis list: entries plus an optional absolute expiry time in
seconds. -/
structure RStream where
  entries : List String
  expiry : Option Nat
  deriving Repr, DecidableEq

/-- The Redis database: an association list from keys to lists. -/
abbrev RedisState := List (String × RStream)

def rlookup (rs : RedisState) (k : String) : Option RStream :=
  (rs.find? fun e => e.1 == k).map (·.2)

/-- `DEL key`. -/
def rdel (rs : RedisState) (k : String) : RedisState :=
  rs.filter fun e => !(e.1 == k)

def rset (rs : RedisState) (k : String) (v : RStream) : RedisState :=
  (k, v) :: rdel rs k

/-- Server-side lazy expiry: a key whose expiry time has passed is dropped
before any command observes it. -/
def purge (rs : RedisState) (k : String) (now : Nat) : RedisState :=
  match rlookup rs k with
  | some s =>
    match s.expiry with
    | some e => if e ≤ now then rdel rs k else rs
    | none => rs
  | none => rs

/-- `RPUSH key m`: creates the key (with no expiry) when absent. -/
def rpush (rs : RedisState) (k m : String) : RedisState :=
  match rlookup rs k with
  | some s => rset rs k { s with entries := s.entries ++ [m] }
  | none => rset rs k ⟨[m], none⟩

/-- The last `n` elements of a list, in order. -/
def takeLast (n : Nat) (l : List String) : List String :=
  (l.reverse.take n).reverse

/-- `LTRIM key -n -1`: keep only the last `n` entries. -/
def ltrimLast (rs : RedisState) (k : String) (n : Nat) : RedisState :=
  match rlookup rs k with
  | some s => rset rs k { s with entries := takeLast n s.entries }
  | none => rs

/-- `TTL key`: `-2` when the key is absent, `-1` when it has no expiry, else
the remaining time. -/
def ttlCode (rs : RedisState) (k : String) (now : Nat) : Int :=
  match rlookup rs k with
  | none => -2
  | some s =>
    match s.expiry with
    | none => -1
    | some e => (e : Int) - (now : Int)

/-- `EXPIRE key secs` at time `now`. -/
def rexpire (rs : RedisState) (k : String) (secs now : Nat) : RedisState :=
  match rlookup rs k with
  | some s => rset rs k { s with expiry := some (now + secs) }
  | none => rs

def LOG_KEY : String := "system_logs"

/-- `f"{LOG_KEY}_{source}"`. -/
def streamKey (source : String) : String := LOG_KEY ++ "_" ++ source

/-- The `expiry` field of the stream at key `k`, when both exist. -/
def expiryOf (rs : RedisState) (k : String) : Option Nat :=
  (rlookup rs k).bind (·.expiry)

/-- `log_to_redis(message, source)` at time `now`, Redis side: push, trim to
the last 1000, then set a 7-day expiry only when none is set. The
`logger.info` call between the trim and the TTL check drives the file
handler modelled above and does not touch Redis. -/
def log_to_redis (rs : RedisState) (now : Nat) (message : String)
    (source : String := "listener") : RedisState :=
  let key := streamKey source
  let rs1 := purge rs key now
  let rs2 := rpush rs1 key message
  let rs3 := ltrimLast rs2 key 1000
  if ttlCode rs3 key now == -1 then rexpire rs3 key (7 * 24 * 60 * 60) now else rs3

/-- `list(dict.fromkeys(logs))`: drop duplicates, keeping each message at
its first occurrence; `seen` accumulates the keys already emitted. -/
def dedupFirstAux (seen : List String) : List String → List String
  | [] => []
  | x :: xs => if x ∈ seen then dedupFirstAux seen xs else x :: dedupFirstAux (x :: seen) xs

def dedupFirst (l : List String) : List String := dedupFirstAux [] l

structure LogsResponse where
  success : Bool
  logs : List String
  deriving Repr, DecidableEq

/-- `GET /get_logs` at time `now`; `typeParam` is the optional `type` query
argument (`request.args.get("type", "listener")`). -/
def get_logs (rs : RedisState) (now : Nat) (typeParam : Option String) : LogsResponse :=
  let log_type := typeParam.getD "listener"
  let key := streamKey log_type
  let rs1 := purge rs key now
  let logs := match rlookup rs1 key with | some s => s.entries | none => []
  ⟨true, dedupFirst logs⟩

structure ClearResponse where
  success : Bool
  message : String
  deriving Repr, DecidableEq

/-- `POST /clear_logs`; `typeParam` is the optional `type` form field. -/
def clear_logs (rs : RedisState) (typeParam : Option String) : RedisState × ClearResponse :=
  let log_type := typeParam.getD "listener"
  (rdel rs (streamKey log_type),
   ⟨true, log_type.capitalize ++ " logs cleared successfully"⟩)

/-- Process-wide logging state: the globals `local_max_bytes` and
`local_backup_count` plus the single active handler installed on the root
logger. -/
structure ServiceState where
  local_max_bytes : Int
  local_backup_count : Int
  handler : Option HandlerState
  deriving Repr, DecidableEq

/-- `configure_logging(max_bytes, backup_count)` on day `today`: update the
globals, detach the old handler and install a freshly constructed one. -/
def configure_logging (svc : ServiceState) (today : String) (fs : FS)
    (max_bytes backup_count : Int) : ServiceState × FS :=
  let h := initHandler "system_logs.txt" max_bytes backup_count today fs
  ({ local_max_bytes := max_bytes, local_backup_count := backup_count,
     handler := some h.1 }, h.2)

def digitsValAux : List Char → Nat → Option Nat
  | [], acc => some acc
  | c :: cs, acc => if c.isDigit then digitsValAux cs (acc * 10 + (c.toNat - 48)) else none

def digitsVal : List Char → Option Nat
  | [] => none
  | c :: cs => digitsValAux (c :: cs) 0

/-- Python `int(str)`: optional surrounding whitespace, an optional sign,
then at least one digit; anything else raises `ValueError` (`none`). -/
def parseIntPy (s : String) : Option Int :=
  let t := ((s.data.dropWhile Char.isWhitespace).reverse.dropWhile Char.isWhitespace).reverse
  match t with
  | '-' :: rest => (digitsVal rest).map fun n => -(n : Int)
  | '+' :: rest => (digitsVal rest).map fun n => (n : Int)
  | cs => (digitsVal cs).map fun n => (n : Int)

structure ConfigResponse where
  success : Bool
  message : String
  deriving Repr, DecidableEq

structure GetConfigResponse where
  success : Bool
  maxBytes : Int
  backupCount : Int
  deriving Repr, DecidableEq

/-- `GET /get_logging_config`: report the two globals. -/
def get_logging_config (svc : ServiceState) : GetConfigResponse :=
  ⟨true, svc.local_max_bytes, svc.local_backup_count⟩

/-- `POST /update_logging_config`: parse the two form fields (a `ValueError`
is answered with the invalid-input message), convert MB to bytes, validate
positivity, then reconfigure. -/
def update_logging_config (svc : ServiceState) (today : String) (fs : FS)
    (maxBytesField backupCountField : String) : ServiceState × FS × ConfigResponse :=
  match parseIntPy maxBytesField with
  | none => (svc, fs, ⟨false, "Invalid input. Please enter valid numbers!"⟩)
  | some mv =>
    match parseIntPy backupCountField with
    | none => (svc, fs, ⟨false, "Invalid input. Please enter valid numbers!"⟩)
    | some bc =>
      let max_bytes := mv * 1024 * 1024
      if max_bytes ≤ 0 ∨ bc ≤ 0 then
        (svc, fs, ⟨false, "Values must be greater than 0!"⟩)
      else
        let c := configure_logging svc today fs max_bytes bc
        (c.1, c.2, ⟨true, "Logging configuration updated successfully!"⟩)

/-- `Except` result that did not raise. -/
def exOk {ε α : Type} : Except ε α → Bool
  | .ok _ => true
  | .error _ => false

/-- Run one `emit`, keeping the state at the raise point when it raises:
used to chain concrete write scenarios. -/
def runEmit (sfs : HandlerState × FS) (today msg : String) : HandlerState × FS :=
  match emit sfs.1 today msg sfs.2 with
  | .ok r => r
  | .error (_, st, fs) => (st, fs)

/-- `append(source, m)` repeated over a message list, all at time `t`. -/
def appendAll (source : String) (t : Nat) (ms : List String) (rs : RedisState) : RedisState :=
  ms.foldl (fun r m => log_to_redis r t m source) rs

/-! ### Association-list lemmas for the Redis model -/

theorem rlookup_rset_self (rs : RedisState) (k : String) (v : RStream) :
    rlookup (rset rs k v) k = some v := by
  simp [rlookup, rset, List.find?_cons]

theorem rlookup_rdel_self (rs : RedisState) (k : String) :
    rlookup (rdel rs k) k = none := by
  induction rs with
  | nil => rfl
  | cons e t ih =>
    by_cases h : e.1 == k
    · simpa [rdel, rlookup, List.filter_cons, h] using ih
    · simpa [rdel, rlookup, List.filter_cons, List.find?_cons, h] using ih

theorem rlookup_rdel_ne (rs : RedisState) (k k' : String) (h : k' ≠ k) :
    rlookup (rdel rs k) k' = rlookup rs k' := by
  induction rs with
  | nil => rfl
  | cons e t ih =>
    by_cases he : e.1 == k
    · have he1 : e.1 = k := by simpa using he
      have : (e.1 == k') = false := by
        simp [he1]
        exact fun hk => h hk.symm
      simp [rdel, rlookup, List.filter_cons, he, List.find?_cons, this] at ih ⊢
      exact ih
    · simp [rdel, rlookup, List.filter_cons, he, List.find?_cons] at ih ⊢
      cases hb : (e.1 == k') <;> simp [hb, ih]

theorem purge_of_none (rs : RedisState) (k : String) (now : Nat)
    (h : rlookup rs k = none) : purge rs k now = rs := by
  simp [purge, h]

theorem purge_of_noexpiry (rs : RedisState) (k : String) (now : Nat) (es : List String)
    (h : rlookup rs k = some ⟨es, none⟩) : purge rs k now = rs := by
  simp [purge, h]

theorem purge_of_live (rs : RedisState) (k : String) (now : Nat) (es : List String) (e : Nat)
    (h : rlookup rs k = some ⟨es, some e⟩) (hlt : now < e) : purge rs k now = rs := by
  simp [purge, h, Nat.not_le.mpr hlt]

theorem takeLast_singleton (m : String) : takeLast 1000 [m] = [m] := by
  simp [takeLast]

/-! ### Behaviour of one `log_to_redis` call -/

/-- Appending to an absent key: the key is created with the single message
and a fresh 7-day expiry. -/
theorem log_to_redis_fresh (rs : RedisState) (now : Nat) (m source : String)
    (h : rlookup rs (streamKey source) = none) :
    rlookup (log_to_redis rs now m source) (streamKey source)
      = some ⟨[m], some (now + 7 * 24 * 60 * 60)⟩ := by
  have h1 : purge rs (streamKey source) now = rs := purge_of_none rs _ now h
  have h2 : rpush rs (streamKey source) m = rset rs (streamKey source) ⟨[m], none⟩ := by
    simp [rpush, h]
  have h3 : rlookup (rset rs (streamKey source) ⟨[m], none⟩) (streamKey source)
      = some ⟨[m], none⟩ := rlookup_rset_self ..
  simp [log_to_redis, h1, h2, ltrimLast, h3, takeLast_singleton, ttlCode,
    rlookup_rset_self, rexpire]

/-- Appending to a key that exists with no expiry: entries are pushed and
trimmed, and a fresh 7-day expiry is installed. -/
theorem log_to_redis_noexpiry (rs : RedisState) (now : Nat) (m source : String)
    (es : List String) (h : rlookup rs (streamKey source) = some ⟨es, none⟩) :
    rlookup (log_to_redis rs now m source) (streamKey source)
      = some ⟨takeLast 1000 (es ++ [m]), some (now + 7 * 24 * 60 * 60)⟩ := by
  have h1 : purge rs (streamKey source) now = rs := purge_of_noexpiry rs _ now es h
  have h2 : rpush rs (streamKey source) m
      = rset rs (streamKey source) ⟨es ++ [m], none⟩ := by simp [rpush, h]
  simp [log_to_redis, h1, h2, ltrimLast, ttlCode, rlookup_rset_self, rexpire, rset]
  simp [rlookup, List.find?_cons]

/-- Appending to a key whose expiry is still in the future: entries are
pushed and trimmed and the expiry is left untouched. -/
theorem log_to_redis_live (rs : RedisState) (now : Nat) (m source : String)
    (es : List String) (e : Nat)
    (h : rlookup rs (streamKey source) = some ⟨es, some e⟩) (hlt : now < e) :
    rlookup (log_to_redis rs now m source) (streamKey source)
      = some ⟨takeLast 1000 (es ++ [m]), some e⟩ := by
  have h1 : purge rs (streamKey source) now = rs := purge_of_live rs _ now es e h hlt
  have h2 : rpush rs (streamKey source) m
      = rset rs (streamKey source) ⟨es ++ [m], some e⟩ := by simp [rpush, h]
  have hne : (((e : Int) - (now : Int)) == (-1 : Int)) = false := by
    have : ¬((e : Int) - (now : Int) = -1) := by omega
    simpa using this
  simp [log_to_redis, h1, h2, ltrimLast, ttlCode, rlookup_rset_self, hne,
    rlookup_rset_self]

/-- Claim C4: the first `append` to a stream with no expiry set installs a
TTL of exactly 7 days from that moment, and any `append` performed while a
TTL is still active leaves the expiry timestamp unchanged. -/
theorem append_ttl_once (rs : RedisState) (now : Nat) (m source : String) :
    (expiryOf rs (streamKey source) = none →
      expiryOf (log_to_redis rs now m source) (streamKey source)
        = some (now + 7 * 24 * 60 * 60))
    ∧ (∀ es e, rlookup rs (streamKey source) = some ⟨es, some e⟩ → now < e →
      expiryOf (log_to_redis rs now m source) (streamKey source) = some e) := by
  constructor
  · intro h
    rcases hb : rlookup rs (streamKey source) with _ | s
    · simp [expiryOf, log_to_redis_fresh rs now m source hb]
    · rcases s with ⟨es, _ | e⟩
      · simp [expiryOf, log_to_redis_noexpiry rs now m source es hb]
      · simp [expiryOf, hb] at h
  · intro es e hb hlt
    simp [expiryOf, log_to_redis_live rs now m source es e hb hlt]

/-- Witness for C4: on an empty store the first append at time 5 installs
expiry 5 + 604800; an append at time 10 on a stream whose expiry 700 is
still active leaves it at 700. -/
theorem append_ttl_once_witness :
    expiryOf (log_to_redis [] 5 "a" "listener") (streamKey "listener") = some (5 + 7 * 24 * 60 * 60)
    ∧ expiryOf (log_to_redis [("system_logs_listener", ⟨["x"], some 700⟩)] 10 "b" "listener")
        (streamKey "listener") = some 700 :=
  ⟨(append_ttl_once [] 5 "a" "listener").1 rfl,
   (append_ttl_once [("system_logs_listener", ⟨["x"], some 700⟩)] 10 "b" "listener").2
     ["x"] 700 rfl (by decide)⟩

/-- Claim C5: `clear(source)` followed immediately by `append(source, m)`
makes `read(source)` return exactly `[m]`. -/
theorem clear_append_read (rs : RedisState) (source m : String) (t : Nat) :
    get_logs (log_to_redis (clear_logs rs (some source)).1 t m source) t (some source)
      = ⟨true, [m]⟩ := by
  have hdel : rlookup (clear_logs rs (some source)).1 (streamKey source) = none := by
    simpa [clear_logs] using rlookup_rdel_self rs (streamKey source)
  have hlog := log_to_redis_fresh (clear_logs rs (some source)).1 t m source hdel
  have hpu : purge (log_to_redis (clear_logs rs (some source)).1 t m source)
      (streamKey source) t = log_to_redis (clear_logs rs (some source)).1 t m source :=
    purge_of_live _ _ _ [m] (t + 7 * 24 * 60 * 60) hlog (by omega)
  simp [get_logs, hpu, hlog, dedupFirst, dedupFirstAux]

/-- Claim C9: with no explicit `type` argument, `get_logs` and `clear_logs`
default to the `"listener"` source: the read is the same as an explicit
`"listener"` read, and the clear deletes exactly the listener stream,
leaving every other key untouched. -/
theorem default_source_listener (rs : RedisState) (t : Nat) :
    get_logs rs t none = get_logs rs t (some "listener")
    ∧ (clear_logs rs none).1 = (clear_logs rs (some "listener")).1
    ∧ rlookup (clear_logs rs none).1 (streamKey "listener") = none
    ∧ ∀ k, k ≠ streamKey "listener" → rlookup (clear_logs rs none).1 k = rlookup rs k := by
  refine ⟨rfl, rfl, by simpa [clear_logs] using rlookup_rdel_self rs (streamKey "listener"),
    fun k hk => by simpa [clear_logs] using rlookup_rdel_ne rs (streamKey "listener") k hk⟩

/-- Witness for C9: clearing with a defaulted source deletes the listener
stream and leaves the processor stream of a concrete two-stream store. -/
theorem default_source_listener_witness :
    rlookup (clear_logs [("system_logs_listener", ⟨["a"], none⟩),
        ("system_logs_processor", ⟨["b"], none⟩)] none).1 "system_logs_processor"
      = rlookup [("system_logs_listener", ⟨["a"], none⟩),
        ("system_logs_processor", ⟨["b"], none⟩)] "system_logs_processor" :=
  (default_source_listener [("system_logs_listener", ⟨["a"], none⟩),
      ("system_logs_processor", ⟨["b"], none⟩)] 0).2.2.2
    "system_logs_processor" (by decide)

/-! ### The bounded-buffer claim: trimming and deduplication -/

theorem takeLast_length_le (n : Nat) (l : List String) : (takeLast n l).length ≤ n := by
  simp [takeLast]

theorem takeLast_append_one (k : Nat) (l : List String) (m : String) :
    takeLast (k + 1) (takeLast (k + 1) l ++ [m]) = takeLast (k + 1) (l ++ [m]) := by
  simp [takeLast, List.take_take, Nat.min_eq_left (Nat.le_succ k)]

theorem dedupFirstAux_sublist (l seen : List String) :
    (dedupFirstAux seen l).Sublist l := by
  induction l generalizing seen with
  | nil => simp [dedupFirstAux]
  | cons x xs ih =>
    by_cases hx : x ∈ seen
    · simpa [dedupFirstAux, hx] using (ih seen).cons x
    · simpa [dedupFirstAux, hx] using (ih (x :: seen)).cons₂ x

theorem dedupFirstAux_not_mem_seen (l seen : List String) (x : String)
    (hx : x ∈ dedupFirstAux seen l) : x ∉ seen := by
  induction l generalizing seen with
  | nil => simp [dedupFirstAux] at hx
  | cons y ys ih =>
    by_cases hy : y ∈ seen
    · exact ih seen (by simpa [dedupFirstAux, hy] using hx)
    · simp [dedupFirstAux, hy] at hx
      rcases hx with rfl | hx
      · exact hy
      · intro hxs
        exact ih (y :: seen) hx (by simp [hxs])

theorem dedupFirstAux_nodup (l seen : List String) : (dedupFirstAux seen l).Nodup := by
  induction l generalizing seen with
  | nil => simp [dedupFirstAux]
  | cons x xs ih =>
    by_cases hx : x ∈ seen
    · simpa [dedupFirstAux, hx] using ih seen
    · simp only [dedupFirstAux, hx, if_neg]
      refine List.nodup_cons.mpr ⟨fun hmem => ?_, ih (x :: seen)⟩
      exact dedupFirstAux_not_mem_seen xs (x :: seen) x hmem (by simp)

theorem dedupFirstAux_mem (l seen : List String) (x : String)
    (hl : x ∈ l) (hs : x ∉ seen) : x ∈ dedupFirstAux seen l := by
  induction l generalizing seen with
  | nil => simp at hl
  | cons y ys ih =>
    by_cases hy : y ∈ seen
    · rcases hl with _ | hl
      · exact absurd hy hs
      · simpa [dedupFirstAux, hy] using ih seen (by assumption) hs
    · rcases hl with _ | hl
      · simp [dedupFirstAux, hy]
      · by_cases hxy : x = y
        · subst hxy; simp [dedupFirstAux, hy]
        · have : x ∈ dedupFirstAux (y :: seen) ys :=
            ih (y :: seen) (by assumption) (by simp [hxy, hs])
          simp [dedupFirstAux, hy, this]

/-- Invariant of repeated appends at a fixed time: once the stream holds the
last 1000 of `acc` with a live 7-day expiry stamped at `t`, appending `ms`
leaves it holding the last 1000 of `acc ++ ms` with the same expiry. -/
theorem appendAll_inv (source : String) (t : Nat) (ms : List String) :
    ∀ (acc : List String) (rs : RedisState),
      rlookup rs (streamKey source) = some ⟨takeLast 1000 acc, some (t + 7 * 24 * 60 * 60)⟩ →
      rlookup (appendAll source t ms rs) (streamKey source)
        = some ⟨takeLast 1000 (acc ++ ms), some (t + 7 * 24 * 60 * 60)⟩ := by
  induction ms with
  | nil => intro acc rs h; simpa [appendAll] using h
  | cons m ms ih =>
    intro acc rs h
    have hstep := log_to_redis_live rs t m source (takeLast 1000 acc)
      (t + 7 * 24 * 60 * 60) h (by omega)
    have hstep' : rlookup (log_to_redis rs t m source) (streamKey source)
        = some ⟨takeLast 1000 (acc ++ [m]), some (t + 7 * 24 * 60 * 60)⟩ := by
      rw [hstep, takeLast_append_one 999 acc m]
    have := ih (acc ++ [m]) (log_to_redis rs t m source) hstep'
    simpa [appendAll] using this

/-- Claim C3: after any finite sequence of `append(source, m)` calls (made
at a common time `t`, so no TTL expires between them), `read(source)`
returns exactly the first-occurrence deduplication of the last 1000
messages: at most 1000 entries, duplicate-free, a subsequence of the
retained window in insertion order, and missing no retained message. -/
theorem read_after_appends (source : String) (t : Nat) (ms : List String) :
    (get_logs (appendAll source t ms []) t (some source)).logs
        = dedupFirst (takeLast 1000 ms)
    ∧ (get_logs (appendAll source t ms []) t (some source)).logs.length ≤ 1000
    ∧ (get_logs (appendAll source t ms []) t (some source)).logs.Nodup
    ∧ (get_logs (appendAll source t ms []) t (some source)).logs.Sublist (takeLast 1000 ms)
    ∧ ∀ x, x ∈ takeLast 1000 ms →
        x ∈ (get_logs (appendAll source t ms []) t (some source)).logs := by
  have hlogs : (get_logs (appendAll source t ms []) t (some source)).logs
      = dedupFirst (takeLast 1000 ms) := by
    cases ms with
    | nil => simp [appendAll, get_logs, purge, rlookup, dedupFirst, dedupFirstAux, takeLast]
    | cons m ms' =>
      have h0 : rlookup ([] : RedisState) (streamKey source) = none := rfl
      have h1 := log_to_redis_fresh ([] : RedisState) t m source h0
      have h1' : rlookup (log_to_redis [] t m source) (streamKey source)
          = some ⟨takeLast 1000 [m], some (t + 7 * 24 * 60 * 60)⟩ := by
        rw [h1, takeLast_singleton]
      have h2 := appendAll_inv source t ms' [m] (log_to_redis [] t m source) h1'
      have hfin : rlookup (appendAll source t (m :: ms') []) (streamKey source)
          = some ⟨takeLast 1000 (m :: ms'), some (t + 7 * 24 * 60 * 60)⟩ := by
        simpa [appendAll] using h2
      have hpu := purge_of_live (appendAll source t (m :: ms') []) (streamKey source) t
        (takeLast 1000 (m :: ms')) (t + 7 * 24 * 60 * 60) hfin (by omega)
      simp [get_logs, hpu, hfin, dedupFirst]
  refine ⟨hlogs, ?_, ?_, ?_, ?_⟩
  · rw [hlogs]
    calc (dedupFirst (takeLast 1000 ms)).length
        ≤ (takeLast 1000 ms).length := (dedupFirstAux_sublist _ _).length_le
      _ ≤ 1000 := takeLast_length_le 1000 ms
  · rw [hlogs]; exact dedupFirstAux_nodup _ _
  · rw [hlogs]; exact dedupFirstAux_sublist _ _
  · intro x hx
    rw [hlogs]
    exact dedupFirstAux_mem _ _ x hx (by simp)

/-- Witness for C3: appending `a, b, a` yields the read `[a, b]`, and the
retained message `a` is indeed returned. -/
theorem read_after_appends_witness :
    (get_logs (appendAll "listener" 0 ["a", "b", "a"] []) 0 (some "listener")).logs
        = dedupFirst (takeLast 1000 ["a", "b", "a"])
    ∧ "a" ∈ (get_logs (appendAll "listener" 0 ["a", "b", "a"] []) 0 (some "listener")).logs :=
  ⟨(read_after_appends "listener" 0 ["a", "b", "a"]).1,
   (read_after_appends "listener" 0 ["a", "b", "a"]).2.2.2.2 "a" (by decide)⟩

/-! ### File-system lemmas -/

theorem find?_eraseKey (l : List (String × String)) (a b : String) (h : a ≠ b) :
    ((l.filter fun e => !(e.1 == a)).find? fun e => e.1 == b)
      = l.find? fun e => e.1 == b := by
  induction l with
  | nil => rfl
  | cons e t ih =>
    by_cases he : e.1 = a
    · have hb : (a == b) = false := by
        simp only [beq_eq_false_iff_ne]
        exact h
      simp [List.filter_cons, he, List.find?_cons, hb, ih]
    · have he' : (e.1 == a) = false := by simpa using he
      cases hb : (e.1 == b) <;>
        simp [List.filter_cons, he', List.find?_cons, hb, ih]

theorem lookupFile_setFile (fs : FS) (p c q : String) :
    (fs.setFile p c).lookupFile q
      = if resolve q = resolve p then some c else fs.lookupFile q := by
  by_cases hr : resolve q = resolve p
  · simp [FS.setFile, FS.lookupFile, List.find?_cons, hr]
  · have hne : (resolve p == resolve q) = false := by
      simp only [beq_eq_false_iff_ne]
      exact fun hx => hr hx.symm
    simp only [FS.setFile, FS.lookupFile, FS.removeFile, List.find?_cons, hne, if_neg hr]
    rw [find?_eraseKey fs.files (resolve p) (resolve q) fun hx => hr hx.symm]

/-- Flushing never loses a file: any path readable before the flush is still
readable (possibly with appended contents) afterwards. -/
theorem flush_lookup_some (st : HandlerState) (fs : FS) (q d : String)
    (h : fs.lookupFile q = some d) :
    ∃ c, (flushStream st fs).2.lookupFile q = some c := by
  cases hsp : st.streamPath with
  | none => exact ⟨d, by simpa [flushStream, hsp] using h⟩
  | some p =>
    cases hl : fs.lookupFile p with
    | none => exact ⟨d, by simpa [flushStream, hsp, hl] using h⟩
    | some c0 =>
      by_cases hr : resolve q = resolve p
      · exact ⟨c0 ++ st.buffer, by simp [flushStream, hsp, hl, lookupFile_setFile, hr]⟩
      · exact ⟨d, by simp [flushStream, hsp, hl, lookupFile_setFile, hr, h]⟩

/-! ### The rollover-decision claim -/

/-- Claim C7: `shouldRollover` first flushes the stream, then returns true
exactly when the flushed on-disk size of `baseFilename` reaches `maxBytes`
or today's date differs from the recorded one; a date change is adopted
into the state on the spot, a size trigger leaves the date alone. -/
theorem shouldRollover_spec (st : HandlerState) (fs : FS) (today p c : String)
    (h1 : st.streamPath = some p)
    (h2 : (flushStream st fs).2.lookupFile st.baseFilename = some c) :
    shouldRollover st today fs = .ok
      (decide ((c.length : Int) ≥ st.maxBytes) || decide (today ≠ st.current_date),
       if (c.length : Int) ≥ st.maxBytes ∨ today = st.current_date
         then (flushStream st fs).1 else adoptDate (flushStream st fs).1 today,
       (flushStream st fs).2) := by
  cases hl : fs.lookupFile p with
  | none =>
    simp only [flushStream, h1, hl] at h2 ⊢
    by_cases hsz : (c.length : Int) ≥ st.maxBytes <;>
      by_cases hd : today = st.current_date <;>
        simp [shouldRollover, h1, hl, flushStream, FS.getsize, h2, hsz, hd]
  | some c0 =>
    simp only [flushStream, h1, hl] at h2 ⊢
    by_cases hsz : (c.length : Int) ≥ st.maxBytes <;>
      by_cases hd : today = st.current_date <;>
        simp [shouldRollover, h1, hl, flushStream, FS.getsize, h2, hsz, hd]

/-- Concrete witness for C7: a handler with two unflushed bytes and an empty
on-disk file, threshold 3: the flushed size 2 stays below the threshold and
the date matches, so no rollover. -/
theorem shouldRollover_spec_witness :
    shouldRollover
        { (initHandler "system_logs.txt" 3 5 "2026-10-12" (⟨[]⟩ : FS)).1 with buffer := "ab" }
        "2026-10-12" (initHandler "system_logs.txt" 3 5 "2026-10-12" (⟨[]⟩ : FS)).2 = .ok
      (decide ((("ab" : String).length : Int)
          ≥ { (initHandler "system_logs.txt" 3 5 "2026-10-12" (⟨[]⟩ : FS)).1 with
              buffer := "ab" }.maxBytes)
        || decide ("2026-10-12"
          ≠ { (initHandler "system_logs.txt" 3 5 "2026-10-12" (⟨[]⟩ : FS)).1 with
              buffer := "ab" }.current_date),
       if (("ab" : String).length : Int)
            ≥ { (initHandler "system_logs.txt" 3 5 "2026-10-12" (⟨[]⟩ : FS)).1 with
                buffer := "ab" }.maxBytes
          ∨ "2026-10-12"
            = { (initHandler "system_logs.txt" 3 5 "2026-10-12" (⟨[]⟩ : FS)).1 with
                buffer := "ab" }.current_date
         then (flushStream
            { (initHandler "system_logs.txt" 3 5 "2026-10-12" (⟨[]⟩ : FS)).1 with buffer := "ab" }
            (initHandler "system_logs.txt" 3 5 "2026-10-12" (⟨[]⟩ : FS)).2).1
         else adoptDate (flushStream
            { (initHandler "system_logs.txt" 3 5 "2026-10-12" (⟨[]⟩ : FS)).1 with buffer := "ab" }
            (initHandler "system_logs.txt" 3 5 "2026-10-12" (⟨[]⟩ : FS)).2).1 "2026-10-12",
       (flushStream
          { (initHandler "system_logs.txt" 3 5 "2026-10-12" (⟨[]⟩ : FS)).1 with buffer := "ab" }
          (initHandler "system_logs.txt" 3 5 "2026-10-12" (⟨[]⟩ : FS)).2).2) :=
  shouldRollover_spec
    { (initHandler "system_logs.txt" 3 5 "2026-10-12" (⟨[]⟩ : FS)).1 with buffer := "ab" }
    (initHandler "system_logs.txt" 3 5 "2026-10-12" (⟨[]⟩ : FS)).2
    "2026-10-12" "/app/system_logs_2026-10-12.txt" "ab" rfl rfl

/-! ### The write-path exception claim -/

/-- Claim C2, amended: `emit` does not raise as long as its own leading
rollover check succeeds — the stream is open and the active file exists —
and every exception raised inside the inherited `super().emit` is absorbed
by its handler. (The unamended claim is refuted by
`emit_raises_on_missing_file` below: the leading check itself runs outside
any exception handler.) -/
theorem emit_no_raise (st : HandlerState) (today msg : String) (fs : FS) (p : String)
    (h1 : st.streamPath = some p) (h2 : fs.existsFile st.baseFilename = true) :
    exOk (emit st today msg fs) = true := by
  obtain ⟨d, hd⟩ := Option.isSome_iff_exists.mp h2
  obtain ⟨c, hc⟩ := flush_lookup_some st fs st.baseFilename d hd
  have hroll := shouldRollover_spec st fs today p c h1 hc
  simp [emit, hroll, exOk]

/-- Witness for the amended C2: a freshly constructed handler writes without
raising. -/
theorem emit_no_raise_witness :
    exOk (emit (initHandler "system_logs.txt" 1048576 10 "2026-10-12" (⟨[]⟩ : FS)).1
      "2026-10-12" "hello" (initHandler "system_logs.txt" 1048576 10 "2026-10-12" (⟨[]⟩ : FS)).2)
      = true :=
  emit_no_raise (initHandler "system_logs.txt" 1048576 10 "2026-10-12" (⟨[]⟩ : FS)).1
    "2026-10-12" "hello" (initHandler "system_logs.txt" 1048576 10 "2026-10-12" (⟨[]⟩ : FS)).2
    "/app/system_logs_2026-10-12.txt" rfl rfl

/-- Counterexample to C2 as stated: when the active file has been removed
from the file system between writes, the `os.path.getsize` call in the
handler's own `shouldRollover` — which `CustomRotatingFileHandler.emit` runs
outside any `try`/`except` — raises `FileNotFoundError`, and the exception
propagates to the caller instead of being absorbed. -/
theorem emit_raises_on_missing_file :
    exOk (emit (initHandler "system_logs.txt" 1048576 10 "2026-10-12" (⟨[]⟩ : FS)).1
      "2026-10-12" "m"
      (((initHandler "system_logs.txt" 1048576 10 "2026-10-12" (⟨[]⟩ : FS)).2).removeFile
        "system_logs_2026-10-12.txt")) = false := by
  rfl

/-! ### The day-change rollover claim -/

/-- The concrete day-change scenario: a handler built on 2026-10-12 with a
1 MiB threshold, one write that day, then one write on 2026-10-13. -/
def c1Start : HandlerState × FS :=
  initHandler "system_logs.txt" 1048576 10 "2026-10-12" (⟨[]⟩ : FS)

def c1Mid : HandlerState × FS := runEmit c1Start "2026-10-12" "m1"

def c1End : HandlerState × FS := runEmit c1Mid "2026-10-13" "m2"

/-- Claim C1 fails on the code: on the first write after a date change (with
the size threshold not crossed) a rollover is triggered, but `doRollover`
renames nothing — the rename source is the not-yet-existing new-date
`base_filename`, while the inherited `baseFilename` keeps the old date — and
the stream is reopened on the old date's file, which then receives the new
record. No backup of the previous date's file is created and no new-date
active file exists. -/
theorem day_change_keeps_old_file :
    exOk (emit c1Start.1 "2026-10-12" "m1" c1Start.2) = true
    ∧ exOk (emit c1Mid.1 "2026-10-13" "m2" c1Mid.2) = true
    ∧ c1End.2.lookupFile "system_logs_2026-10-13.txt" = none
    ∧ c1End.2.lookupFile "system_logs_1_2026-10-12.txt" = none
    ∧ c1End.2.lookupFile "system_logs_1_2026-10-13.txt" = none
    ∧ c1End.2.lookupFile "system_logs_2026-10-12.txt" = some "m1\nm2\n"
    ∧ c1End.1.streamPath = some "/app/system_logs_2026-10-12.txt"
    ∧ c1End.1.current_date = "2026-10-13"
    ∧ c1End.1.base_filename = "/app/system_logs_2026-10-13.txt"
    ∧ c1End.2.files.length = 1 :=
  ⟨rfl, rfl, rfl, rfl, rfl, rfl, rfl, rfl, rfl, rfl⟩

/-! ### The backup-renumbering claim -/

/-- File system for the renumbering scenario: backups 1, 2 and a
pre-existing backup 3 for the active date, plus the active file; the four
pairwise-distinct contents mark file identity across the renames. -/
def c8Fs : FS :=
  ⟨[("/app/system_logs_1_2026-10-12.txt", "old1"),
    ("/app/system_logs_2_2026-10-12.txt", "old2"),
    ("/app/system_logs_3_2026-10-12.txt", "old3"),
    ("/app/system_logs_2026-10-12.txt", "act")]⟩

/-- A handler with `backupCount = 3` attached to that file system. -/
def c8Handler : HandlerState :=
  (initHandler "system_logs.txt" 100 3 "2026-10-12" c8Fs).1

/-- The file system after one rotation of that handler. -/
def c8After : FS := (doRollover c8Handler "2026-10-12" c8Fs).2

/-- Claim C8: rotating with `backup_count = 3` over existing backups
{1, 2, 3} shifts `i → i + 1` for `i = 2, 1` (in that order), so afterwards
backup 1 holds the just-closed active file, backup 2 the old backup 1,
backup 3 the old backup 2; the pre-existing backup 3 is overwritten, no
backup 4 appears, and a fresh empty active file is reopened. -/
theorem backup_renumbering :
    c8After.lookupFile "system_logs_1_2026-10-12.txt" = some "act"
    ∧ c8After.lookupFile "system_logs_2_2026-10-12.txt" = some "old1"
    ∧ c8After.lookupFile "system_logs_3_2026-10-12.txt" = some "old2"
    ∧ c8After.lookupFile "system_logs_2026-10-12.txt" = some ""
    ∧ c8After.lookupFile "system_logs_4_2026-10-12.txt" = none
    ∧ c8After.files.length = 4 :=
  ⟨rfl, rfl, rfl, rfl, rfl, rfl⟩

/-! ### The configuration-update claims -/

/-- Claim C6: a configuration-update request whose fields are non-numeric,
or whose parsed values are non-positive, is answered with a structured
failure carrying a non-empty human-readable message, and leaves the service
state (configuration and active writer) and the file system untouched; a
subsequent `get_logging_config` still reports the prior pair. -/
theorem invalid_config_rejected (svc : ServiceState) (today : String) (fs : FS)
    (mStr bStr : String)
    (h : parseIntPy mStr = none ∨ parseIntPy bStr = none ∨
      ∃ mv bc : Int, parseIntPy mStr = some mv ∧ parseIntPy bStr = some bc ∧
        (mv ≤ 0 ∨ bc ≤ 0)) :
    (update_logging_config svc today fs mStr bStr).1 = svc
    ∧ (update_logging_config svc today fs mStr bStr).2.1 = fs
    ∧ (update_logging_config svc today fs mStr bStr).2.2.success = false
    ∧ (update_logging_config svc today fs mStr bStr).2.2.message ≠ ""
    ∧ get_logging_config (update_logging_config svc today fs mStr bStr).1
        = ⟨true, svc.local_max_bytes, svc.local_backup_count⟩ := by
  cases hm : parseIntPy mStr with
  | none => simp [update_logging_config, hm, get_logging_config]
  | some mv =>
    cases hb : parseIntPy bStr with
    | none => simp [update_logging_config, hm, hb, get_logging_config]
    | some bc =>
      have hnp : mv ≤ 0 ∨ bc ≤ 0 := by
        rcases h with h | h | ⟨mv', bc', hm', hb', h'⟩
        · rw [hm] at h; cases h
        · rw [hb] at h; cases h
        · rw [hm] at hm'; rw [hb] at hb'
          cases hm'; cases hb'
          exact h'
      have hcond : mv * 1024 * 1024 ≤ 0 ∨ bc ≤ 0 := by
        rcases hnp with h' | h'
        · left; omega
        · right; exact h'
      simp [update_logging_config, hm, hb, hcond, get_logging_config]

/-- Witness for C6: the spec's example `configure(max_bytes=0,
backup_count=5)` is rejected and the default configuration is still
reported. -/
theorem invalid_config_rejected_witness :
    (update_logging_config ⟨1048576, 10, none⟩ "2026-10-12" (⟨[]⟩ : FS) "0" "5").1
        = ⟨1048576, 10, none⟩
    ∧ (update_logging_config ⟨1048576, 10, none⟩ "2026-10-12" (⟨[]⟩ : FS) "0" "5").2.1
        = (⟨[]⟩ : FS)
    ∧ (update_logging_config ⟨1048576, 10, none⟩ "2026-10-12" (⟨[]⟩ : FS) "0" "5").2.2.success
        = false
    ∧ (update_logging_config ⟨1048576, 10, none⟩ "2026-10-12" (⟨[]⟩ : FS) "0" "5").2.2.message
        ≠ ""
    ∧ get_logging_config
        (update_logging_config ⟨1048576, 10, none⟩ "2026-10-12" (⟨[]⟩ : FS) "0" "5").1
        = ⟨true, 1048576, 10⟩ :=
  invalid_config_rejected ⟨1048576, 10, none⟩ "2026-10-12" (⟨[]⟩ : FS) "0" "5"
    (Or.inr (Or.inr ⟨0, 5, rfl, rfl, Or.inl (by norm_num)⟩))

/-- Claim C10: a successful configuration update with numeric values
`v > 0` (MB) and `b > 0` reports success, and `get_logging_config` then
returns `maxBytes = v * 1048576` — the byte count, not the submitted MB
value — and `backupCount = b`. -/
theorem config_update_mb_to_bytes (svc : ServiceState) (today : String) (fs : FS)
    (mStr bStr : String) (v b : Int)
    (hm : parseIntPy mStr = some v) (hv : 0 < v)
    (hb : parseIntPy bStr = some b) (hbv : 0 < b) :
    (update_logging_config svc today fs mStr bStr).2.2.success = true
    ∧ get_logging_config (update_logging_config svc today fs mStr bStr).1
        = ⟨true, v * 1048576, b⟩ := by
  have harith : v * 1024 * 1024 = v * 1048576 := by ring
  have hcond : ¬(v * 1048576 ≤ 0 ∨ b ≤ 0) := by
    push_neg
    constructor
    · omega
    · exact hbv
  simp [update_logging_config, hm, hb, harith, hcond, get_logging_config, configure_logging]

/-- Witness for C10: submitting `maxBytes = "5"` and `backupCount = "3"`
succeeds and reports 5242880 bytes and 3 backups. -/
theorem config_update_mb_to_bytes_witness :
    (update_logging_config ⟨1048576, 10, none⟩ "2026-10-12" (⟨[]⟩ : FS) "5" "3").2.2.success
        = true
    ∧ get_logging_config
        (update_logging_config ⟨1048576, 10, none⟩ "2026-10-12" (⟨[]⟩ : FS) "5" "3").1
        = ⟨true, 5 * 1048576, 3⟩ :=
  config_update_mb_to_bytes ⟨1048576, 10, none⟩ "2026-10-12" (⟨[]⟩ : FS) "5" "3" 5 3
    rfl (by norm_num) rfl (by norm_num)

end BleGatewayLog
